import Mathlib

/-!
Verification of the replicated-command layer of etcd (src/command.go).

The Go file defines six command variants (Set, TestAndSet, Get, Delete,
Watch, Join), each with a `CommandName` and an `Apply(server *raft.Server)`
method operating on the global store `etcdStore`, the raft server handle,
the routing map maintained by `addNameToURL`, and the config globals
`maxClusterSize` / `machineNum()`.

Shallow embedding choices:
- `MachineState` bundles the mutable collaborators one node sees during an
  apply: the store (entries + registered watchers), the raft server handle
  (commit index + peer list), the in-memory routing directory, and the
  `maxClusterSize` config global.
- External fallible collaborators are oracles carried in the state: the
  error component of `Store.RawGet` (`rawGetErr`) and the outcome of
  `raft.Server.AddPeer` (`addPeerErr`).
- Each state-affecting call an `Apply` makes is also recorded, in call
  order and with its actual arguments, in an instrumentation `trace` field
  (no Go counterpart); this makes call order and the index argument of
  each store call provable.
- Go's `(interface{}, error)` return pairs are modelled as
  `Option ApplyResult × Option GoError`; both components can be set at
  once, exactly as in Go (Join does this when AddPeer fails).
- The one-shot channel receive `res := <-watcher.C` blocking in
  `WatchCommand.Apply` is modelled by passing the single delivered value
  (`none` = the nil cancellation sentinel) as an explicit argument.
- Store internals, `machineNum` and `addNameToURL` are code of this
  repository outside src/; they are modelled from the spec and marked so.
-/

/-- Go `error` values reaching this layer: structured etcd errors built by
`etcdErr.NewError(code, msg)`, and plain string errors built by
`fmt.Errorf`. -/
inductive GoError where
  | etcdError (errorCode : Nat) (message : String)
  | stringError (msg : String)
deriving DecidableEq

/-- Modelled from the spec: the store's change descriptor returned by
`set` / `testAndSet` / `delete` / `get` (store code is outside src/),
"covering old/new value, new index". -/
structure Response where
  action : String
  key : String
  prevValue : Option String
  value : Option String
  index : Nat
deriving DecidableEq

/-- Result payloads of `Apply` (Go `interface{}`): raw bytes (the Join
markers and `json.Marshal` output) or a store change descriptor. -/
inductive ApplyResult where
  | bytes (s : String)
  | response (r : Response)
deriving DecidableEq

/-- One key-value record of the store. `expireTime` models Go `time.Time`
as unix nanoseconds; `0` is the epoch-zero sentinel `time.Unix(0, 0)`. -/
structure StoreEntry where
  key : String
  value : String
  expireTime : Int
  index : Nat
deriving DecidableEq

/-- A watcher registered through `etcdStore.AddWatcher(key, w, sinceIndex)`. -/
structure Watcher where
  key : String
  sinceIndex : Nat
deriving DecidableEq

/-- Instrumentation: one state-affecting call made by an `Apply`, with the
arguments it was invoked with, in call order. -/
inductive Effect where
  | addNameToURL (name : String) (raftURL : String) (etcdURL : String)
  | addPeer (name : String)
  | storeSet (key : String) (value : String) (expireTime : Int) (index : Nat)
  | storeTestAndSet (key : String) (prevValue : String) (value : String)
      (expireTime : Int) (index : Nat)
  | storeDelete (key : String) (index : Nat)
  | addWatcher (key : String) (sinceIndex : Nat)
deriving DecidableEq

/-- The store (`etcdStore` global): its key-value records, the registered
watchers, and the oracle giving the error component of `RawGet` (the
component `JoinCommand.Apply` discards with `response, _ :=`). -/
structure Store where
  entries : List StoreEntry
  watchers : List Watcher
  rawGetErr : String → Option GoError

/-- The raft server handle (`*raft.Server`): commit index of the entry
being applied, current peer list, and the oracle giving `AddPeer`'s
outcome for a given name. -/
structure Server where
  commitIndex : Nat
  peers : List String
  addPeerErr : String → Option GoError

/-- Everything one node's apply path touches: store, raft handle, the
routing directory filled by `addNameToURL`, the `maxClusterSize` config
global, and the instrumentation trace. -/
structure MachineState where
  store : Store
  raftServer : Server
  nameToURL : List (String × String × String)
  maxClusterSize : Nat
  trace : List Effect

/-- Go `path.Join` of a namespace with a member name (no `path.Clean`
normalisation is modelled; all keys used here are already clean). -/
def pathJoin (a b : String) : String :=
  if b = "" then a else a ++ "/" ++ b

/-- Replace the first record with the given key, or append a new record:
the write primitive of the store's key-value list. -/
def setEntries (l : List StoreEntry) (key value : String)
    (expireTime : Int) (index : Nat) : List StoreEntry :=
  match l with
  | [] => [⟨key, value, expireTime, index⟩]
  | en :: rest =>
    if en.key == key then ⟨key, value, expireTime, index⟩ :: rest
    else en :: setEntries rest key value expireTime index

/-- Store `RawGet`: the record at the exact key, paired with the oracle's
error component. -/
def Store.rawGet (s : Store) (key : String) :
    Option StoreEntry × Option GoError :=
  (s.entries.find? (fun en => en.key == key), s.rawGetErr key)

/-- Modelled from the spec: `set(key, value, expireTime, index)`
"unconditionally writes, using the command's commit index as the store's
version stamp" and returns the change descriptor (store code is outside
src/). The call is recorded in the trace. -/
def MachineState.storeSet (st : MachineState) (key value : String)
    (expireTime : Int) (index : Nat) : MachineState × Response :=
  ({ st with
      store := { st.store with
        entries := setEntries st.store.entries key value expireTime index },
      trace := st.trace ++ [Effect.storeSet key value expireTime index] },
   { action := "SET", key := key,
     prevValue := (st.store.entries.find? (fun en => en.key == key)).map
       (fun en => en.value),
     value := some value, index := index })

/-- Modelled from the spec: `testAndSet` "writes only if the store's
current value at key equals prevValue at apply time; fails with a
CompareMismatch condition otherwise" (store code is outside src/). The
call is recorded in the trace. -/
def MachineState.storeTestAndSet (st : MachineState)
    (key prevValue value : String) (expireTime : Int) (index : Nat) :
    MachineState × (Option Response × Option GoError) :=
  let traced := { st with
    trace := st.trace ++
      [Effect.storeTestAndSet key prevValue value expireTime index] }
  match st.store.entries.find? (fun en => en.key == key) with
  | some en =>
    if en.value == prevValue then
      ({ traced with
          store := { traced.store with
            entries := setEntries st.store.entries key value expireTime index } },
       (some { action := "TESTANDSET", key := key, prevValue := some en.value,
               value := some value, index := index }, none))
    else (traced, (none, some (GoError.etcdError 101 "")))
  | none => (traced, (none, some (GoError.etcdError 101 "")))

/-- Modelled from the spec: `delete(key, index)` "removes the key; fails
with KeyNotFound if absent" (store code is outside src/). The call is
recorded in the trace. -/
def MachineState.storeDelete (st : MachineState) (key : String)
    (index : Nat) : MachineState × (Option Response × Option GoError) :=
  let traced := { st with
    trace := st.trace ++ [Effect.storeDelete key index] }
  match st.store.entries.find? (fun en => en.key == key) with
  | some en =>
    ({ traced with
        store := { traced.store with
          entries := st.store.entries.filter (fun e2 => e2.key != key) } },
     (some { action := "DELETE", key := key, prevValue := some en.value,
             value := none, index := index }, none))
  | none => (traced, (none, some (GoError.etcdError 100 "")))

/-- Modelled from the spec: `get(key)` is "read-only; fails with
KeyNotFound if the key is absent" (store code is outside src/). No state
change and no index argument. -/
def MachineState.storeGet (st : MachineState) (key : String) :
    Option Response × Option GoError :=
  match st.store.entries.find? (fun en => en.key == key) with
  | some en =>
    (some { action := "GET", key := key, prevValue := none,
            value := some en.value, index := en.index }, none)
  | none => (none, some (GoError.etcdError 100 ""))

/-- Store `AddWatcher(key, watcher, sinceIndex)`: register one observer.
The call is recorded in the trace. -/
def MachineState.addWatcher (st : MachineState) (key : String)
    (sinceIndex : Nat) : MachineState :=
  { st with
      store := { st.store with
        watchers := st.store.watchers ++ [⟨key, sinceIndex⟩] },
      trace := st.trace ++ [Effect.addWatcher key sinceIndex] }

/-- Modelled from the spec: `addNameToURL` registers
"name → \x7braftURL, etcdURL\x7d in the in-memory routing directory"
(its code is outside src/); an association-list insert-or-replace. The
call is recorded in the trace. -/
def MachineState.addNameToURL (st : MachineState)
    (name raftURL etcdURL : String) : MachineState :=
  { st with
      nameToURL := (name, raftURL, etcdURL) ::
        st.nameToURL.filter (fun p => p.fst != name),
      trace := st.trace ++ [Effect.addNameToURL name raftURL etcdURL] }

/-- Raft `AddPeer(name, "")`: on success append the peer, on failure
(per the oracle) return the error; the peer list changes only on success.
The call is recorded in the trace. -/
def MachineState.addPeer (st : MachineState) (name : String) :
    MachineState × Option GoError :=
  let err := st.raftServer.addPeerErr name
  ({ st with
      raftServer := { st.raftServer with
        peers := if err.isNone then st.raftServer.peers ++ [name]
                 else st.raftServer.peers },
      trace := st.trace ++ [Effect.addPeer name] },
   err)

/-- Character-list prefix test (Go `strings.HasPrefix`), kept on
`List Char` so that concrete instances evaluate inside the kernel. -/
def listIsPre : List Char → List Char → Bool
  | [], _ => true
  | _ :: _, [] => false
  | a :: as, b :: bs => a == b && listIsPre as bs

/-- Modelled from the spec: `machineNum()` is the "current membership
count" (its code is outside src/): the number of membership records under
the `_etcd/machines` namespace of the store. -/
def machineNum (st : MachineState) : Nat :=
  (st.store.entries.filter
    (fun en => listIsPre ("_etcd/machines/").data en.key.data)).length

/-- Modelled from the spec: `json.Marshal` of a store change descriptor —
"the store's serialized description of the matching change event". -/
def jsonQuote (s : String) : String := "\x22" ++ s ++ "\x22"

/-- Serialization of an optional JSON string: `null` when absent. -/
def jsonOptStr : Option String → String
  | some s => jsonQuote s
  | none => "null"

/-- Modelled from the spec: the serialized (JSON) description of a change
event returned by a resolved watch. -/
def jsonMarshal (r : Response) : String :=
  "\x7b" ++ jsonQuote "action" ++ ":" ++ jsonQuote r.action ++
  "," ++ jsonQuote "key" ++ ":" ++ jsonQuote r.key ++
  "," ++ jsonQuote "prevValue" ++ ":" ++ jsonOptStr r.prevValue ++
  "," ++ jsonQuote "value" ++ ":" ++ jsonOptStr r.value ++
  "," ++ jsonQuote "index" ++ ":" ++ toString r.index ++ "\x7d"

/-- The fixed namespace tag of each command's name in the log:
`commandName(name) = "etcd:" + name`. -/
def commandName (name : String) : String := "etcd:" ++ name

/-- Set command (src/command.go): key, value, expireTime. -/
structure SetCommand where
  Key : String
  Value : String
  ExpireTime : Int
deriving DecidableEq

/-- The name of the set command in the log. -/
def SetCommand.CommandName (_ : SetCommand) : String := commandName "set"

/-- Set the key-value pair: `etcdStore.Set(c.Key, c.Value, c.ExpireTime,
server.CommitIndex())`. -/
def SetCommand.Apply (c : SetCommand) (st : MachineState) :
    MachineState × (Option ApplyResult × Option GoError) :=
  let r := st.storeSet c.Key c.Value c.ExpireTime st.raftServer.commitIndex
  (r.fst, (some (ApplyResult.response r.snd), none))

/-- TestAndSet command (src/command.go): key, value, prevValue,
expireTime. -/
structure TestAndSetCommand where
  Key : String
  Value : String
  PrevValue : String
  ExpireTime : Int
deriving DecidableEq

/-- The name of the testAndSet command in the log. -/
def TestAndSetCommand.CommandName (_ : TestAndSetCommand) : String :=
  commandName "testAndSet"

/-- Set the key-value pair if the current value of the key equals the
given prevValue: `etcdStore.TestAndSet(c.Key, c.PrevValue, c.Value,
c.ExpireTime, server.CommitIndex())`. -/
def TestAndSetCommand.Apply (c : TestAndSetCommand) (st : MachineState) :
    MachineState × (Option ApplyResult × Option GoError) :=
  let r := st.storeTestAndSet c.Key c.PrevValue c.Value c.ExpireTime
    st.raftServer.commitIndex
  (r.fst, (r.snd.fst.map ApplyResult.response, r.snd.snd))

/-- Get command (src/command.go): key. -/
structure GetCommand where
  Key : String
deriving DecidableEq

/-- The name of the get command in the log. -/
def GetCommand.CommandName (_ : GetCommand) : String := commandName "get"

/-- Get the value of key: `etcdStore.Get(c.Key)` — no index argument, no
state change. -/
def GetCommand.Apply (c : GetCommand) (st : MachineState) :
    MachineState × (Option ApplyResult × Option GoError) :=
  let r := st.storeGet c.Key
  (st, (r.fst.map ApplyResult.response, r.snd))

/-- Delete command (src/command.go): key. -/
structure DeleteCommand where
  Key : String
deriving DecidableEq

/-- The name of the delete command in the log. -/
def DeleteCommand.CommandName (_ : DeleteCommand) : String :=
  commandName "delete"

/-- Delete the key: `etcdStore.Delete(c.Key, server.CommitIndex())`. -/
def DeleteCommand.Apply (c : DeleteCommand) (st : MachineState) :
    MachineState × (Option ApplyResult × Option GoError) :=
  let r := st.storeDelete c.Key st.raftServer.commitIndex
  (r.fst, (r.snd.fst.map ApplyResult.response, r.snd.snd))

/-- Watch command (src/command.go): key, sinceIndex. -/
structure WatchCommand where
  Key : String
  SinceIndex : Nat
deriving DecidableEq

/-- The name of the watch command in the log. -/
def WatchCommand.CommandName (_ : WatchCommand) : String :=
  commandName "watch"

/-- Watch apply: create a watcher, register it via
`etcdStore.AddWatcher(c.Key, watcher, c.SinceIndex)`, then block on
`res := <-watcher.C`. The single value the channel delivers is the
`delivery` argument; `none` is the nil cancellation sentinel, on which the
code returns `nil, fmt.Errorf("Clearing watch")`; a real change event is
returned as `json.Marshal(res)`. -/
def WatchCommand.Apply (c : WatchCommand) (st : MachineState)
    (delivery : Option Response) :
    MachineState × (Option ApplyResult × Option GoError) :=
  let st1 := st.addWatcher c.Key c.SinceIndex
  match delivery with
  | none => (st1, (none, some (GoError.stringError "Clearing watch")))
  | some res => (st1, (some (ApplyResult.bytes (jsonMarshal res)), none))

/-- Join command (src/command.go): name, raftURL, etcdURL. -/
structure JoinCommand where
  Name : String
  RaftURL : String
  EtcdURL : String
deriving DecidableEq

/-- The name of the join command in the log. -/
def JoinCommand.CommandName (_ : JoinCommand) : String :=
  commandName "join"

/-- NodeName accessor of the join command. -/
def JoinCommand.NodeName (c : JoinCommand) : String := c.Name

/-- Join a server to the cluster, mirroring src/command.go line by line:
replay check via `RawGet(path.Join("_etcd/machines", c.Name))` with the
error discarded; capacity check `machineNum() == maxClusterSize` returning
`[]byte("join fail"), etcdErr.NewError(103, "")`; then `addNameToURL`,
`raftServer.AddPeer(c.Name, "")`, and the membership `Set` with value
`fmt.Sprintf("raft=%s&etcd=%s", ...)`, sentinel `time.Unix(0, 0)` and
index `raftServer.CommitIndex()`; returns `[]byte("join success")` paired
with AddPeer's error. -/
def JoinCommand.Apply (c : JoinCommand) (st : MachineState) :
    MachineState × (Option ApplyResult × Option GoError) :=
  let key := pathJoin "_etcd/machines" c.Name
  let response := (st.store.rawGet key).fst
  if response.isSome then
    (st, (some (ApplyResult.bytes "join success"), none))
  else if machineNum st = st.maxClusterSize then
    (st, (some (ApplyResult.bytes "join fail"),
          some (GoError.etcdError 103 "")))
  else
    let st1 := st.addNameToURL c.Name c.RaftURL c.EtcdURL
    let p := st1.addPeer c.Name
    let key2 := pathJoin "_etcd/machines" c.Name
    let value := "raft=" ++ c.RaftURL ++ "&etcd=" ++ c.EtcdURL
    let st3 := (p.fst.storeSet key2 value 0 p.fst.raftServer.commitIndex).fst
    (st3, (some (ApplyResult.bytes "join success"), p.snd))

/-- Go `reflect.StructTag.Get`, restricted to the well-formed shape
`key:"value"` actually consulted by `encoding/json`: a tag that does not
start with `key:"` (such as the malformed `json: prevValue`) yields no
value, and Go then falls back to the field's own name. -/
def structTagGet (tag asKey : String) : Option String :=
  let pre := (asKey ++ ":\x22").data
  if listIsPre pre tag.data then
    some (String.mk ((tag.data.drop pre.length).takeWhile
      (fun ch => ch != '\x22')))
  else none

/-- The field name `encoding/json` emits for a Go struct field given as
(field name, struct tag): the `json` tag's value if the tag is
well-formed, else the field name itself. -/
def jsonFieldName (field : String × String) : String :=
  match structTagGet field.snd "json" with
  | some n => n
  | none => field.fst

/-- The fields and struct tags of `SetCommand` as written in the source. -/
def SetCommand.goFieldTags : List (String × String) :=
  [("Key", "json:\x22key\x22"), ("Value", "json:\x22value\x22"),
   ("ExpireTime", "json:\x22expireTime\x22")]

/-- The fields and struct tags of `TestAndSetCommand` as written in the
source; note the malformed tag `json: prevValue` on `PrevValue`. -/
def TestAndSetCommand.goFieldTags : List (String × String) :=
  [("Key", "json:\x22key\x22"), ("Value", "json:\x22value\x22"),
   ("PrevValue", "json: prevValue"),
   ("ExpireTime", "json:\x22expireTime\x22")]

/-- The fields and struct tags of `GetCommand` as written in the source. -/
def GetCommand.goFieldTags : List (String × String) :=
  [("Key", "json:\x22key\x22")]

/-- The fields and struct tags of `DeleteCommand` as written in the
source. -/
def DeleteCommand.goFieldTags : List (String × String) :=
  [("Key", "json:\x22key\x22")]

/-- The fields and struct tags of `WatchCommand` as written in the
source. -/
def WatchCommand.goFieldTags : List (String × String) :=
  [("Key", "json:\x22key\x22"), ("SinceIndex", "json:\x22sinceIndex\x22")]

/-- The fields and struct tags of `JoinCommand` as written in the
source. -/
def JoinCommand.goFieldTags : List (String × String) :=
  [("Name", "json:\x22name\x22"), ("RaftURL", "json:\x22raftURL\x22"),
   ("EtcdURL", "json:\x22etcdURL\x22")]

/-- Swap the store's rawGet error oracle: used to state that Join ignores
the error component of `RawGet`. -/
def MachineState.withRawGetErr (st : MachineState)
    (f : String → Option GoError) : MachineState :=
  { st with store := { st.store with rawGetErr := f } }

/-- After a write, the store lookup at the written key finds exactly the
written record. -/
theorem find_setEntries_self (l : List StoreEntry) (key value : String)
    (expireTime : Int) (index : Nat) :
    (setEntries l key value expireTime index).find?
        (fun en => en.key == key)
      = some ⟨key, value, expireTime, index⟩ := by
  induction l with
  | nil => simp [setEntries]
  | cons en rest ih =>
    cases h : (en.key == key) with
    | true => simp [setEntries, h]
    | false => simp [setEntries, h, ih]

/-- Unfolding of `JoinCommand.Apply` on the replay branch: a non-nil
RawGet response short-circuits to success with no state change. -/
theorem join_replay_unfold (c : JoinCommand) (st : MachineState)
    (h : ((st.store.rawGet (pathJoin "_etcd/machines" c.Name)).fst).isSome
      = true) :
    JoinCommand.Apply c st
      = (st, (some (ApplyResult.bytes "join success"), none)) := by
  unfold JoinCommand.Apply
  simp [h]

/-- Unfolding of `JoinCommand.Apply` on the reject branch: no record and
membership count exactly `maxClusterSize`. -/
theorem join_reject_unfold (c : JoinCommand) (st : MachineState)
    (h1 : (st.store.rawGet (pathJoin "_etcd/machines" c.Name)).fst = none)
    (h2 : machineNum st = st.maxClusterSize) :
    JoinCommand.Apply c st
      = (st, (some (ApplyResult.bytes "join fail"),
              some (GoError.etcdError 103 ""))) := by
  unfold JoinCommand.Apply
  simp [h1, h2]

/-- Unfolding of `JoinCommand.Apply` on the accept branch. -/
theorem join_accept_unfold (c : JoinCommand) (st : MachineState)
    (h1 : (st.store.rawGet (pathJoin "_etcd/machines" c.Name)).fst = none)
    (h2 : machineNum st ≠ st.maxClusterSize) :
    JoinCommand.Apply c st
      = ((((st.addNameToURL c.Name c.RaftURL c.EtcdURL).addPeer
            c.Name).fst.storeSet (pathJoin "_etcd/machines" c.Name)
            ("raft=" ++ c.RaftURL ++ "&etcd=" ++ c.EtcdURL) 0
            (((st.addNameToURL c.Name c.RaftURL
                c.EtcdURL).addPeer c.Name).fst.raftServer.commitIndex)).fst,
         (some (ApplyResult.bytes "join success"),
          ((st.addNameToURL c.Name c.RaftURL c.EtcdURL).addPeer
            c.Name).snd)) := by
  unfold JoinCommand.Apply
  simp [h1, h2]

/-- A concrete node state with an empty store, commit index 7, one
existing peer, a functioning AddPeer, and room in the cluster. -/
def stEmpty : MachineState :=
  { store := { entries := [], watchers := [], rawGetErr := fun _ => none },
    raftServer := { commitIndex := 7, peers := ["nodeA"],
                    addPeerErr := fun _ => none },
    nameToURL := [("nodeA", "ra", "ea")], maxClusterSize := 9, trace := [] }

/-- A concrete node state holding a membership record for `nodeA`. -/
def stJoined : MachineState :=
  { store := { entries := [⟨"_etcd/machines/nodeA", "raft=ra&etcd=ea", 0, 3⟩],
               watchers := [], rawGetErr := fun _ => none },
    raftServer := { commitIndex := 7, peers := ["nodeA"],
                    addPeerErr := fun _ => none },
    nameToURL := [("nodeA", "ra", "ea")], maxClusterSize := 9, trace := [] }

/-- A concrete node state whose consensus engine refuses any AddPeer. -/
def stPeerDown : MachineState :=
  { store := { entries := [], watchers := [], rawGetErr := fun _ => none },
    raftServer := { commitIndex := 7, peers := ["nodeA"],
                    addPeerErr := fun _ =>
                      some (GoError.stringError "Unable to join") },
    nameToURL := [("nodeA", "ra", "ea")], maxClusterSize := 9, trace := [] }

/-- A concrete node state at exactly the configured capacity
(one membership record, `maxClusterSize = 1`). -/
def stAtCap : MachineState :=
  { store := { entries := [⟨"_etcd/machines/nodeA", "raft=ra&etcd=ea", 0, 3⟩],
               watchers := [], rawGetErr := fun _ => none },
    raftServer := { commitIndex := 7, peers := ["nodeA"],
                    addPeerErr := fun _ => none },
    nameToURL := [("nodeA", "ra", "ea")], maxClusterSize := 1, trace := [] }

/-- A concrete node state strictly above the configured capacity, reached
from a fresh node by applying two committed Set commands that write under
the `_etcd/machines` namespace with `maxClusterSize = 1`. -/
def stOverCap : MachineState :=
  (SetCommand.Apply ⟨"_etcd/machines/b", "y", 0⟩
    (SetCommand.Apply ⟨"_etcd/machines/a", "x", 0⟩
      { store := { entries := [], watchers := [],
                   rawGetErr := fun _ => none },
        raftServer := { commitIndex := 5, peers := [],
                        addPeerErr := fun _ => none },
        nameToURL := [], maxClusterSize := 1, trace := [] }).fst).fst

/-- A concrete change event used to exercise the watch path. -/
def respWitness : Response :=
  { action := "SET", key := "foo", prevValue := none,
    value := some "1", index := 8 }

/-- C5: a Watch whose registered watcher receives the nil cancellation
sentinel fails with the WatchCleared error (`fmt.Errorf("Clearing
watch")`) and returns no result payload, so a cancelled watch is always
distinguishable from an observed change. -/
theorem watch_cancellation_clears (c : WatchCommand) (st : MachineState) :
    (WatchCommand.Apply c st none).snd
      = (none, some (GoError.stringError "Clearing watch")) := rfl

/-- C7: a Watch apply registers exactly one observer at the store with the
command's key and sinceIndex forwarded unchanged — the full state change
is exactly `addWatcher` — and a non-nil delivery resolves it with the
serialized (JSON) description of the change event and no error. -/
theorem watch_apply_registers_and_returns (c : WatchCommand)
    (st : MachineState) (delivery : Option Response) :
    ((WatchCommand.Apply c st delivery).fst.store.watchers
        = st.store.watchers ++ [⟨c.Key, c.SinceIndex⟩])
    ∧ ((WatchCommand.Apply c st delivery).fst.trace
        = st.trace ++ [Effect.addWatcher c.Key c.SinceIndex])
    ∧ ((WatchCommand.Apply c st delivery).fst
        = st.addWatcher c.Key c.SinceIndex)
    ∧ (∀ res, delivery = some res →
        (WatchCommand.Apply c st delivery).snd
          = (some (ApplyResult.bytes (jsonMarshal res)), none)) := by
  cases delivery with
  | none =>
    exact ⟨rfl, rfl, rfl, fun res h => Option.noConfusion h⟩
  | some r0 =>
    refine ⟨rfl, rfl, rfl, fun res h => ?_⟩
    injection h with h2
    subst h2
    rfl

/-- Closed instance of C7: on the concrete state `stEmpty`, a delivered
change event resolves the watch with its JSON serialization. -/
theorem watch_apply_registers_and_returns_witness :
    (WatchCommand.Apply ⟨"foo", 3⟩ stEmpty (some respWitness)).snd
      = (some (ApplyResult.bytes (jsonMarshal respWitness)), none) :=
  (watch_apply_registers_and_returns ⟨"foo", 3⟩ stEmpty
    (some respWitness)).2.2.2 respWitness rfl

/-- C8: the emitted wire field names are exactly `key`, `value`,
`expireTime`, `prevValue`, `sinceIndex`, `name`, `raftURL`, `etcdURL`,
except that `TestAndSetCommand`'s malformed tag `json: prevValue` makes
`encoding/json` fall back to the default field name `PrevValue`; and each
variant's type identifier is `"etcd:"` joined with its operation name,
distinct across the six variants. -/
theorem wire_field_names_and_identifiers :
    SetCommand.goFieldTags.map jsonFieldName = ["key", "value", "expireTime"]
    ∧ TestAndSetCommand.goFieldTags.map jsonFieldName
        = ["key", "value", "PrevValue", "expireTime"]
    ∧ structTagGet "json: prevValue" "json" = none
    ∧ GetCommand.goFieldTags.map jsonFieldName = ["key"]
    ∧ DeleteCommand.goFieldTags.map jsonFieldName = ["key"]
    ∧ WatchCommand.goFieldTags.map jsonFieldName = ["key", "sinceIndex"]
    ∧ JoinCommand.goFieldTags.map jsonFieldName
        = ["name", "raftURL", "etcdURL"]
    ∧ (∀ c : SetCommand, c.CommandName = commandName "set")
    ∧ (∀ c : TestAndSetCommand, c.CommandName = commandName "testAndSet")
    ∧ (∀ c : GetCommand, c.CommandName = commandName "get")
    ∧ (∀ c : DeleteCommand, c.CommandName = commandName "delete")
    ∧ (∀ c : WatchCommand, c.CommandName = commandName "watch")
    ∧ (∀ c : JoinCommand, c.CommandName = commandName "join")
    ∧ [commandName "set", commandName "testAndSet", commandName "get",
       commandName "delete", commandName "watch",
       commandName "join"].Nodup
    ∧ commandName "set" = "etcd:set" :=
  ⟨by decide, by decide, by decide, by decide, by decide, by decide,
   by decide, fun _ => rfl, fun _ => rfl, fun _ => rfl, fun _ => rfl,
   fun _ => rfl, fun _ => rfl, by decide, by decide⟩

/-- C1 counterexample: the code's capacity check is an equality test
(`num == maxClusterSize`), not "at or above". On the reachable state
`stOverCap` (membership count 2, configured maximum 1, name `nodeC`
unseen) the claim demands a ClusterFull rejection with no mutation, but
`JoinCommand.Apply` accepts the join, returns "join success", and writes
the membership record. -/
theorem join_capacity_at_or_above_refuted :
    ((stOverCap.store.rawGet (pathJoin "_etcd/machines" "nodeC")).fst
      = none)
    ∧ stOverCap.maxClusterSize ≤ machineNum stOverCap
    ∧ (JoinCommand.Apply ⟨"nodeC", "rc", "ec"⟩ stOverCap).snd
        = (some (ApplyResult.bytes "join success"), none)
    ∧ (JoinCommand.Apply ⟨"nodeC", "rc", "ec"⟩ stOverCap).fst.store.entries
        ≠ stOverCap.store.entries := by decide

/-- C1 (amended): for a Join whose name has no membership record, if the
membership count is exactly the configured maximum, `JoinCommand.Apply`
returns the failure payload "join fail" with the ClusterFull error
(code 103) and performs no mutation of any kind: the state is returned
unchanged. -/
theorem join_capacity_exact_rejects (c : JoinCommand) (st : MachineState)
    (h1 : (st.store.rawGet (pathJoin "_etcd/machines" c.Name)).fst = none)
    (h2 : machineNum st = st.maxClusterSize) :
    JoinCommand.Apply c st
      = (st, (some (ApplyResult.bytes "join fail"),
              some (GoError.etcdError 103 ""))) :=
  join_reject_unfold c st h1 h2

/-- Closed instance of the amended C1 at the concrete state `stAtCap`. -/
theorem join_capacity_exact_rejects_witness :
    JoinCommand.Apply ⟨"nodeB", "rb", "eb"⟩ stAtCap
      = (stAtCap, (some (ApplyResult.bytes "join fail"),
                   some (GoError.etcdError 103 ""))) :=
  join_capacity_exact_rejects ⟨"nodeB", "rb", "eb"⟩ stAtCap
    (by decide) (by decide)

/-- C2: Join is idempotent. When a membership record exists at the
namespaced key, `Apply` returns success immediately with the state
completely unchanged (no capacity check, no registration, no peer add, no
store write); and whenever a Join returns the success payload, replaying
the identical Join returns success again and leaves the state — hence
membership count and peer list — exactly as after the first call. -/
theorem join_apply_idempotent (c : JoinCommand) (st : MachineState) :
    (((st.store.rawGet (pathJoin "_etcd/machines" c.Name)).fst).isSome
        = true →
      JoinCommand.Apply c st
        = (st, (some (ApplyResult.bytes "join success"), none)))
    ∧ (∀ st1 e1,
        JoinCommand.Apply c st
          = (st1, (some (ApplyResult.bytes "join success"), e1)) →
        JoinCommand.Apply c st1
          = (st1, (some (ApplyResult.bytes "join success"), none))) := by
  constructor
  · intro h
    exact join_replay_unfold c st h
  · intro st1 e1 h
    rcases hr : (st.store.rawGet (pathJoin "_etcd/machines" c.Name)).fst
      with _ | en
    · by_cases hm : machineNum st = st.maxClusterSize
      · rw [join_reject_unfold c st hr hm] at h
        have hbad := congrArg (fun p => p.snd.fst) h
        simp at hbad
      · rw [join_accept_unfold c st hr hm] at h
        injection h with hst hrest
        subst hst
        refine join_replay_unfold c _ ?_
        simp [Store.rawGet, MachineState.storeSet, MachineState.addPeer,
          MachineState.addNameToURL, find_setEntries_self]
    · have hR := join_replay_unfold c st (by rw [hr]; rfl)
      rw [hR] at h
      injection h with hst hrest
      subst hst
      exact hR

/-- Closed instance of C2 at the concrete state `stJoined`, which already
holds a membership record for `nodeA`. -/
theorem join_apply_idempotent_witness :
    JoinCommand.Apply ⟨"nodeA", "ra", "ea"⟩ stJoined
      = (stJoined, (some (ApplyResult.bytes "join success"), none)) :=
  (join_apply_idempotent ⟨"nodeA", "ra", "ea"⟩ stJoined).1 (by decide)

/-- C3: an accepted Join performs its side effects in order — (a) routing
registration, (b) consensus AddPeer, (c) membership Set — and the record
written at `path.Join("_etcd/machines", name)` carries the value
`raft=<raftURL>&etcd=<etcdURL>`, the epoch-zero sentinel expire time, and
the consensus commit index as its stamp. -/
theorem join_accept_effect_order (c : JoinCommand) (st : MachineState)
    (h1 : (st.store.rawGet (pathJoin "_etcd/machines" c.Name)).fst = none)
    (h2 : machineNum st ≠ st.maxClusterSize) :
    ((JoinCommand.Apply c st).fst.trace
      = st.trace ++ [Effect.addNameToURL c.Name c.RaftURL c.EtcdURL,
          Effect.addPeer c.Name,
          Effect.storeSet (pathJoin "_etcd/machines" c.Name)
            ("raft=" ++ c.RaftURL ++ "&etcd=" ++ c.EtcdURL) 0
            st.raftServer.commitIndex])
    ∧ ((JoinCommand.Apply c st).fst.store.entries.find?
          (fun en => en.key == pathJoin "_etcd/machines" c.Name)
        = some ⟨pathJoin "_etcd/machines" c.Name,
                "raft=" ++ c.RaftURL ++ "&etcd=" ++ c.EtcdURL, 0,
                st.raftServer.commitIndex⟩) := by
  rw [join_accept_unfold c st h1 h2]
  constructor
  · simp [MachineState.storeSet, MachineState.addPeer,
      MachineState.addNameToURL]
  · simp [MachineState.storeSet, MachineState.addPeer,
      MachineState.addNameToURL, find_setEntries_self]

/-- Closed instance of C3 at the concrete state `stEmpty`. -/
theorem join_accept_effect_order_witness :
    ((JoinCommand.Apply ⟨"nodeB", "rb", "eb"⟩ stEmpty).fst.trace
      = stEmpty.trace ++ [Effect.addNameToURL "nodeB" "rb" "eb",
          Effect.addPeer "nodeB",
          Effect.storeSet (pathJoin "_etcd/machines" "nodeB")
            ("raft=" ++ "rb" ++ "&etcd=" ++ "eb") 0
            stEmpty.raftServer.commitIndex])
    ∧ ((JoinCommand.Apply ⟨"nodeB", "rb", "eb"⟩ stEmpty).fst.store.entries.find?
          (fun en => en.key == pathJoin "_etcd/machines" "nodeB")
        = some ⟨pathJoin "_etcd/machines" "nodeB",
                "raft=" ++ "rb" ++ "&etcd=" ++ "eb", 0,
                stEmpty.raftServer.commitIndex⟩) :=
  join_accept_effect_order ⟨"nodeB", "rb", "eb"⟩ stEmpty
    (by decide) (by decide)

/-- C4: on an accepted Join whose AddPeer step fails, there is no
rollback: the routing-directory registration and the membership record
written to the store remain in the final state, and the AddPeer error is
propagated to the caller rather than suppressed. -/
theorem join_addPeer_failure_no_rollback (c : JoinCommand)
    (st : MachineState) (err : GoError)
    (h1 : (st.store.rawGet (pathJoin "_etcd/machines" c.Name)).fst = none)
    (h2 : machineNum st ≠ st.maxClusterSize)
    (h3 : st.raftServer.addPeerErr c.Name = some err) :
    ((JoinCommand.Apply c st).snd.snd = some err)
    ∧ ((JoinCommand.Apply c st).fst.store.entries.find?
          (fun en => en.key == pathJoin "_etcd/machines" c.Name)
        = some ⟨pathJoin "_etcd/machines" c.Name,
                "raft=" ++ c.RaftURL ++ "&etcd=" ++ c.EtcdURL, 0,
                st.raftServer.commitIndex⟩)
    ∧ ((c.Name, c.RaftURL, c.EtcdURL)
        ∈ (JoinCommand.Apply c st).fst.nameToURL) := by
  rw [join_accept_unfold c st h1 h2]
  refine ⟨?_, ?_, ?_⟩
  · simp [MachineState.addPeer, MachineState.addNameToURL, h3]
  · simp [MachineState.storeSet, MachineState.addPeer,
      MachineState.addNameToURL, find_setEntries_self]
  · simp [MachineState.storeSet, MachineState.addPeer,
      MachineState.addNameToURL]

/-- Closed instance of C4 at the concrete state `stPeerDown`, whose
consensus engine refuses AddPeer. -/
theorem join_addPeer_failure_no_rollback_witness :
    ((JoinCommand.Apply ⟨"nodeB", "rb", "eb"⟩ stPeerDown).snd.snd
      = some (GoError.stringError "Unable to join"))
    ∧ ((JoinCommand.Apply ⟨"nodeB", "rb", "eb"⟩
          stPeerDown).fst.store.entries.find?
          (fun en => en.key == pathJoin "_etcd/machines" "nodeB")
        = some ⟨pathJoin "_etcd/machines" "nodeB",
                "raft=" ++ "rb" ++ "&etcd=" ++ "eb", 0,
                stPeerDown.raftServer.commitIndex⟩)
    ∧ (("nodeB", "rb", "eb")
        ∈ (JoinCommand.Apply ⟨"nodeB", "rb", "eb"⟩
            stPeerDown).fst.nameToURL) :=
  join_addPeer_failure_no_rollback ⟨"nodeB", "rb", "eb"⟩ stPeerDown
    (GoError.stringError "Unable to join") (by decide) (by decide)
    (by decide)

/-- C9: on an accepted Join whose AddPeer step fails, the result payload
is still the success marker "join success", paired with the AddPeer
error: inspecting only the payload cannot distinguish a fully successful
join from one whose peer-add failed. -/
theorem join_success_payload_despite_addPeer_error (c : JoinCommand)
    (st : MachineState) (err : GoError)
    (h1 : (st.store.rawGet (pathJoin "_etcd/machines" c.Name)).fst = none)
    (h2 : machineNum st ≠ st.maxClusterSize)
    (h3 : st.raftServer.addPeerErr c.Name = some err) :
    (JoinCommand.Apply c st).snd
      = (some (ApplyResult.bytes "join success"), some err) := by
  rw [join_accept_unfold c st h1 h2]
  simp [MachineState.addPeer, MachineState.addNameToURL, h3]

/-- Closed instance of C9 at the concrete state `stPeerDown`. -/
theorem join_success_payload_despite_addPeer_error_witness :
    (JoinCommand.Apply ⟨"nodeC", "rc", "ec"⟩ stPeerDown).snd
      = (some (ApplyResult.bytes "join success"),
         some (GoError.stringError "Unable to join")) :=
  join_success_payload_despite_addPeer_error ⟨"nodeC", "rc", "ec"⟩
    stPeerDown (GoError.stringError "Unable to join") (by decide)
    (by decide) (by decide)

/-- C6: every mutating variant invokes the store with the
consensus-assigned commit index read from the consensus handle as its
version-stamp argument — Set, TestAndSet, Delete, and Join's internal
membership Set — while Get passes no index and performs no mutation (the
state, trace included, is returned unchanged). -/
theorem mutators_use_commitIndex :
    (∀ (c : SetCommand) (st : MachineState),
      (SetCommand.Apply c st).fst.trace
        = st.trace ++ [Effect.storeSet c.Key c.Value c.ExpireTime
            st.raftServer.commitIndex])
    ∧ (∀ (c : TestAndSetCommand) (st : MachineState),
      (TestAndSetCommand.Apply c st).fst.trace
        = st.trace ++ [Effect.storeTestAndSet c.Key c.PrevValue c.Value
            c.ExpireTime st.raftServer.commitIndex])
    ∧ (∀ (c : DeleteCommand) (st : MachineState),
      (DeleteCommand.Apply c st).fst.trace
        = st.trace ++ [Effect.storeDelete c.Key
            st.raftServer.commitIndex])
    ∧ (∀ (c : GetCommand) (st : MachineState),
      (GetCommand.Apply c st).fst = st)
    ∧ (∀ (c : JoinCommand) (st : MachineState),
      (st.store.rawGet (pathJoin "_etcd/machines" c.Name)).fst = none →
      machineNum st ≠ st.maxClusterSize →
      (JoinCommand.Apply c st).fst.trace
        = st.trace ++ [Effect.addNameToURL c.Name c.RaftURL c.EtcdURL,
            Effect.addPeer c.Name,
            Effect.storeSet (pathJoin "_etcd/machines" c.Name)
              ("raft=" ++ c.RaftURL ++ "&etcd=" ++ c.EtcdURL) 0
              st.raftServer.commitIndex]) := by
  refine ⟨fun c st => rfl, ?_, ?_, fun c st => rfl, ?_⟩
  · intro c st
    simp only [TestAndSetCommand.Apply, MachineState.storeTestAndSet]
    split <;> (try split) <;> rfl
  · intro c st
    simp only [DeleteCommand.Apply, MachineState.storeDelete]
    split <;> rfl
  · intro c st h1 h2
    rw [join_accept_unfold c st h1 h2]
    simp [MachineState.storeSet, MachineState.addPeer,
      MachineState.addNameToURL]

/-- Closed instance of C6's hypothesis-bearing conjunct: the membership
Set of an accepted Join on `stEmpty` is stamped with commit index 7, the
consensus handle's commit index. -/
theorem mutators_use_commitIndex_witness :
    (JoinCommand.Apply ⟨"nodeD", "rd", "ed"⟩ stEmpty).fst.trace
      = stEmpty.trace ++ [Effect.addNameToURL "nodeD" "rd" "ed",
          Effect.addPeer "nodeD",
          Effect.storeSet (pathJoin "_etcd/machines" "nodeD")
            ("raft=" ++ "rd" ++ "&etcd=" ++ "ed") 0
            stEmpty.raftServer.commitIndex] :=
  mutators_use_commitIndex.2.2.2.2 ⟨"nodeD", "rd", "ed"⟩ stEmpty
    (by decide) (by decide)

/-- C10: the Join replay check discards RawGet's error component — the
whole apply (result and state) is invariant under any change of that
component — and any non-nil response short-circuits to success, so a
RawGet failure with a nil response behaves exactly like an absent record
and falls through to the fresh-join path. -/
theorem join_rawGet_error_discarded (c : JoinCommand) (st : MachineState)
    (f : String → Option GoError) :
    ((JoinCommand.Apply c (st.withRawGetErr f)).snd
        = (JoinCommand.Apply c st).snd)
    ∧ ((JoinCommand.Apply c (st.withRawGetErr f)).fst
        = ((JoinCommand.Apply c st).fst).withRawGetErr f)
    ∧ (∀ en,
        (st.store.rawGet (pathJoin "_etcd/machines" c.Name)).fst = some en →
        JoinCommand.Apply c st
          = (st, (some (ApplyResult.bytes "join success"), none))) := by
  rcases hr : (st.store.rawGet (pathJoin "_etcd/machines" c.Name)).fst
    with _ | en
  · by_cases hm : machineNum st = st.maxClusterSize
    · rw [join_reject_unfold c st hr hm,
        join_reject_unfold c (st.withRawGetErr f) hr hm]
      exact ⟨rfl, rfl, fun en h => Option.noConfusion h⟩
    · rw [join_accept_unfold c st hr hm,
        join_accept_unfold c (st.withRawGetErr f) hr hm]
      exact ⟨rfl, rfl, fun en h => Option.noConfusion h⟩
  · have hR := join_replay_unfold c st (by rw [hr]; rfl)
    have hRf := join_replay_unfold c (st.withRawGetErr f)
      (by rw [show ((st.withRawGetErr f).store.rawGet
          (pathJoin "_etcd/machines" c.Name)).fst
        = (st.store.rawGet (pathJoin "_etcd/machines" c.Name)).fst
        from rfl, hr]; rfl)
    rw [hR, hRf]
    exact ⟨rfl, rfl, fun en2 h => rfl⟩

/-- Closed instance of C10: on `stJoined`, whose record for `nodeA`
exists, the replay check short-circuits to success even for a Join
carrying different URLs. -/
theorem join_rawGet_error_discarded_witness :
    JoinCommand.Apply ⟨"nodeA", "rx", "ex"⟩ stJoined
      = (stJoined, (some (ApplyResult.bytes "join success"), none)) :=
  (join_rawGet_error_discarded ⟨"nodeA", "rx", "ex"⟩ stJoined
    (fun _ => some (GoError.stringError "read failure"))).2.2
    ⟨"_etcd/machines/nodeA", "raft=ra&etcd=ea", 0, 3⟩ (by decide)
